import Mathlib

/-
Verification of the torch.jit tracing/scripting frontend
(src/torch/jit/__init__.py) against its natural-language specification.

The Python code is shallowly embedded: tensors are represented by their
identity (a `Nat`), Python exceptions by `Except`, and the stateful C++
tracer by explicit event lists.  Each definition carries a reference to
the source lines it embeds.
-/

set_option autoImplicit false

namespace TorchJit

/-! ## Value flattener (spec 4.1; src lines 43-44)

`_flatten` / `_unflatten` are bound to `torch._C._jit_flatten` /
`torch._C._jit_unflatten`, which are implemented in C++ and not part of
the Python sources.  Modelled from the spec: `flatten(x)` returns the
ordered sequence of leaf tensors together with a reconstruction
descriptor; `unflatten(leaves, descriptor)` rebuilds a structurally
identical nested value; non-tensor leaves (`None`) are preserved in the
descriptor, and only tensors appear in the flat leaf sequence. -/

mutual

/-- A nested Python value crossing the capture boundary: a tensor
(identified by its object identity), a tuple, a list, or `None`.
`PyValueList` is an inlined list of `PyValue` (a mutual inductive is used
instead of `List PyValue` so that all functions below are structurally
recursive). -/
inductive PyValue : Type where
  | tensor (id : Nat)
  | tuple (xs : PyValueList)
  | pylist (xs : PyValueList)
  | pynone

/-- Inlined list of nested Python values. -/
inductive PyValueList : Type where
  | nil
  | cons (x : PyValue) (xs : PyValueList)

end

mutual

/-- Modelled from the spec: the reconstruction descriptor produced by
`flatten`: an immutable tree shape with one `leaf` per tensor slot and
non-tensor leaves (`None`) stored verbatim. -/
inductive Desc : Type where
  | leaf
  | tupleD (ds : DescList)
  | listD (ds : DescList)
  | noneSlot

/-- Inlined list of descriptors. -/
inductive DescList : Type where
  | nil
  | cons (d : Desc) (ds : DescList)

end

mutual

/-- Modelled from the spec: `flatten(x) -> (leaves, descriptor)`
(`torch._C._jit_flatten`, bound at src line 43). -/
def flatten : PyValue → List Nat × Desc
  | PyValue.tensor i => ([i], Desc.leaf)
  | PyValue.tuple xs => ((flattenList xs).1, Desc.tupleD (flattenList xs).2)
  | PyValue.pylist xs => ((flattenList xs).1, Desc.listD (flattenList xs).2)
  | PyValue.pynone => ([], Desc.noneSlot)

/-- Embeds `flatten` mapped over an inlined list, concatenating the leaves. -/
def flattenList : PyValueList → List Nat × DescList
  | PyValueList.nil => ([], DescList.nil)
  | PyValueList.cons x xs =>
      ((flatten x).1 ++ (flattenList xs).1, DescList.cons (flatten x).2 (flattenList xs).2)

end

mutual

/-- Modelled from the spec: rebuild one value from a descriptor, consuming
leaves from the front of the flat sequence; returns the value and the
remaining leaves, or `none` when the leaf sequence is too short. -/
def unflat : Desc → List Nat → Option (PyValue × List Nat)
  | Desc.leaf, [] => Option.none
  | Desc.leaf, i :: rest => some (PyValue.tensor i, rest)
  | Desc.tupleD ds, leaves =>
      match unflatList ds leaves with
      | Option.none => Option.none
      | some (vs, rest) => some (PyValue.tuple vs, rest)
  | Desc.listD ds, leaves =>
      match unflatList ds leaves with
      | Option.none => Option.none
      | some (vs, rest) => some (PyValue.pylist vs, rest)
  | Desc.noneSlot, leaves => some (PyValue.pynone, leaves)

/-- Embeds `unflat` threaded over an inlined descriptor list. -/
def unflatList : DescList → List Nat → Option (PyValueList × List Nat)
  | DescList.nil, leaves => some (PyValueList.nil, leaves)
  | DescList.cons d ds, leaves =>
      match unflat d leaves with
      | Option.none => Option.none
      | some (v, rest) =>
          match unflatList ds rest with
          | Option.none => Option.none
          | some (vs, rest2) => some (PyValueList.cons v vs, rest2)

end

/-- Modelled from the spec: `unflatten(leaves, descriptor)`
(`torch._C._jit_unflatten`, bound at src line 44), requiring the whole
leaf sequence to be consumed. -/
def unflatten (leaves : List Nat) (d : Desc) : Option PyValue :=
  match unflat d leaves with
  | some (v, []) => some v
  | _ => Option.none

/-! ## Capture session (spec 4.2; src lines 108-130)

`torch._C._tracer_enter` / `_tracer_exit` / `_tracer_abandon` are C++
primitives; the model records their invocations as an ordered event list.
Per the spec, `begin` returns all inputs as graph placeholders, so the
placeholders handed back by `_tracer_enter` are modelled as the input
tensors themselves. -/

/-- A call into the C++ tracer: session entry (with the flattened inputs
plus module state), session commit (with the flattened outputs), or
session abandonment. -/
inductive TracerEvent : Type where
  | enter (inputs : List Nat)
  | exit (outputs : List Nat)
  | abandon
deriving DecidableEq, Repr

/-- Embeds `LegacyTracedModule.forward` (src lines 116-130).  `args` are the
call arguments, `module_state` the tensors of `_unique_state_dict`, and
`inner` the traced body (`self.inner`), which may raise (modelled as
`Except.error` with the exception text).  Returns the Python-level
outcome together with the tracer events in order.  The failure branch of
`unflatten` corresponds to an exception raised inside the `try` block. -/
def legacyForward (args : PyValue) (module_state : List Nat)
    (inner : PyValue → Except String PyValue) :
    Except String PyValue × List TracerEvent :=
  let in_vars := (flatten args).1
  let in_desc := (flatten args).2
  let all_trace_inputs := in_vars ++ module_state
  let body : Except String PyValue :=
    match unflatten (all_trace_inputs.take in_vars.length) in_desc with
    | Option.none => Except.error "size mismatch in unflatten"
    | some trace_inputs => inner trace_inputs
  match body with
  | Except.ok out =>
      (Except.ok out,
       [TracerEvent.enter all_trace_inputs, TracerEvent.exit (flatten out).1])
  | Except.error e =>
      (Except.error e, [TracerEvent.enter all_trace_inputs, TracerEvent.abandon])

/-! ## Scope stack (spec 4.2 push_scope/pop_scope; src lines 49-58) -/

/-- A call on the tracing state scope stack. -/
inductive ScopeEvent : Type where
  | push (name : String)
  | pop
deriving DecidableEq, Repr

/-- The `scope(scope_name)` context manager (src lines 49-58).  `body` is
the outcome of the enclosed block together with the scope events the
block itself performed.  When a tracing session is active the manager
pushes `scope_name` before the body and - via `try/finally` - pops it
afterwards whether or not the body raised; with no active session it is
a no-op around the body. -/
def scopeRun {ε α : Type} (tracingActive : Bool) (scope_name : String)
    (body : Except ε α × List ScopeEvent) : Except ε α × List ScopeEvent :=
  if tracingActive then
    (body.1, (ScopeEvent.push scope_name :: body.2) ++ [ScopeEvent.pop])
  else
    body

/-! ## Trace verifier (spec 4.6; src lines 279-408)

`_check_trace` compares the originally traced module against a freshly
re-traced check module on user-supplied inputs.  Graph canonicalization
and diffing (`graph_diagnostic_info`, which consults the C++ graph) are
modelled by their result: the diagnostics triple.  Tensor outputs are
modelled by identity lists and `assert_allclose` by a tolerance oracle. -/

/-- The triple computed by `graph_diagnostic_info` (src lines 303-367):
textual graph diff (if the canonicalized graphs differ), tensor-valued
constant comparison errors, and the nondeterministic-ops warning. -/
structure Diagnostics : Type where
  graphDiffErrors : Option String
  tensorCompareErrors : Option String
  nondeterministicOpsWarning : Option String
deriving DecidableEq, Repr

/-- Embeds `TracingCheckError` (src lines 279-295): carries the full diagnostics
triple plus the optional extra message of the raise site. -/
structure TracingCheckErr : Type where
  diag : Diagnostics
  extraMsg : Option String
deriving DecidableEq, Repr

/-- One `check_inputs` iteration of `_check_trace`, abstracted over the
external executions: `diagInfo` is what `graph_diagnostic_info()` would
return, `tracedRun`/`fnRun`/`checkRun` the outcomes of running the traced
module, the original callable, and the re-traced check module on these
inputs (tensor outputs filtered, as in `run_mod_and_filter_tensor_outputs`),
and `close` the per-tensor `assert_allclose` tolerance oracle. -/
structure CheckRunEnv : Type where
  diagInfo : Diagnostics
  tracedRun : Except String (List Nat)
  fnRun : Except String (List Nat)
  checkRun : Except String (List Nat)
  close : Nat → Nat → Bool

/-- Pairwise output comparison: `for orig, check in zip(...):
assert_allclose(orig, check)` (src lines 385-387 and 404-406); `zip`
truncates to the shorter list. -/
def listClose (env : CheckRunEnv) (a b : List Nat) : Bool :=
  (a.zip b).all fun p => env.close p.1 p.2

def runTraceExcMsg : String :=
  "Encountered an exception while running trace with check inputs."

def outputsMismatchMsg : String :=
  "ERROR: Traced function outputs do not match the Python function outputs."

def runCheckExcMsg : String :=
  "Encountered an exception while running checking trace with check inputs."

/-- The body of the `for inputs in check_inputs` loop of `_check_trace`
(src lines 377-408): run the traced module, the original callable and the
check module, comparing tensor outputs; every raise site passes
`*graph_diagnostic_info()` to `TracingCheckError`. -/
def checkTraceOne (env : CheckRunEnv) : Except TracingCheckErr Unit :=
  match env.tracedRun with
  | Except.error e => Except.error ⟨env.diagInfo, some (runTraceExcMsg ++ e)⟩
  | Except.ok traced_outs =>
    match env.fnRun with
    | Except.error e => Except.error ⟨env.diagInfo, some (outputsMismatchMsg ++ e)⟩
    | Except.ok fn_outs =>
      if listClose env traced_outs fn_outs = false then
        Except.error ⟨env.diagInfo, some outputsMismatchMsg⟩
      else
        match env.checkRun with
        | Except.error e => Except.error ⟨env.diagInfo, some (runCheckExcMsg ++ e)⟩
        | Except.ok check_outs =>
          if listClose env traced_outs check_outs = false then
            Except.error ⟨env.diagInfo, Option.none⟩
          else
            Except.ok ()

/-- Embeds `_check_trace` (src lines 299-408): the loop over `check_inputs`,
stopping at the first raised `TracingCheckError`. -/
def checkTrace : List CheckRunEnv → Except TracingCheckErr Unit
  | [] => Except.ok ()
  | env :: rest =>
      match checkTraceOne env with
      | Except.error e => Except.error e
      | Except.ok _ => checkTrace rest

/-- A run disagrees on output values: one of the three executions raised,
or the traced outputs differ from the Python outputs or from the check
module outputs beyond tolerance.  These - and only these - conditions
make `_check_trace` raise. -/
def outputMismatch (env : CheckRunEnv) : Bool :=
  (match env.tracedRun with | Except.error _ => true | Except.ok _ => false) ||
  (match env.fnRun with | Except.error _ => true | Except.ok _ => false) ||
  (match env.checkRun with | Except.error _ => true | Except.ok _ => false) ||
  (match env.tracedRun, env.fnRun with
   | Except.ok a, Except.ok b => !listClose env a b
   | _, _ => false) ||
  (match env.tracedRun, env.checkRun with
   | Except.ok a, Except.ok b => !listClose env a b
   | _, _ => false)

/-- A concrete verifier run whose canonicalized graphs differ but whose
three executions succeed with identical outputs. -/
def graphDiffOnlyEnv : CheckRunEnv :=
  { diagInfo := ⟨some "graph diff", Option.none, Option.none⟩
    tracedRun := Except.ok [0]
    fnRun := Except.ok [0]
    checkRun := Except.ok [0]
    close := fun a b => a == b }

/-- A concrete verifier run in which the re-traced check module raises. -/
def checkRunFailsEnv : CheckRunEnv :=
  { diagInfo := ⟨some "gd", some "td", some "warn"⟩
    tracedRun := Except.ok [0]
    fnRun := Except.ok [0]
    checkRun := Except.error "boom"
    close := fun a b => a == b }

/-! ## Constant folding / ScriptModule.__setattr__ (spec 4.4; src lines 742-842) -/

mutual

/-- A Python value assigned to a `ScriptModule` attribute, abstracted to
the kinds `_get_valid_constant` and `ScriptModule.__setattr__`
distinguish.  `pyFunction`, `moduleList`, `sequential` and tensors and
other object kinds are identified by an object id or a type name; values
of scalar kinds carry their payload.  `constModuleList`/`constSequential`
are the wrapped `_ConstModuleList`/`_ConstSequential` forms. -/
inductive ConstVal : Type where
  | pyBool (b : Bool)
  | pyFloat (tag : Nat)
  | pyInt (n : Int)
  | pyFunction (id : Nat)
  | pyDevice (tag : Nat)
  | pyLayout (tag : Nat)
  | pyDtype (tag : Nat)
  | moduleList (id : Nat)
  | sequential (id : Nat)
  | constModuleList (id : Nat)
  | constSequential (id : Nat)
  | tup (xs : ConstValList)
  | lst (xs : ConstValList)
  | other (typeName : String)

/-- Inlined list of `ConstVal`, for the elements of tuples and lists. -/
inductive ConstValList : Type where
  | nil
  | cons (x : ConstVal) (xs : ConstValList)

end

/-- Embeds `isinstance(v, _constant_types)` with
`_constant_types = (bool, float, int, types.FunctionType, torch.device,
torch.layout, torch.dtype)` (src line 746). -/
def isBaseConstantType : ConstVal → Bool
  | ConstVal.pyBool _ => true
  | ConstVal.pyFloat _ => true
  | ConstVal.pyInt _ => true
  | ConstVal.pyFunction _ => true
  | ConstVal.pyDevice _ => true
  | ConstVal.pyLayout _ => true
  | ConstVal.pyDtype _ => true
  | _ => false

/-- The type names interpolated into the `TypeError` message of
`_get_valid_constant` (src lines 754-760). -/
def constantTypeNames : List String :=
  ["bool", "float", "int", "function", "device", "layout", "dtype"]

/-- An error raised by attribute assignment on a script/traced module. -/
inductive SetattrErr : Type where
  /-- Embeds `RuntimeError: attempting to re-assign constant` (src line 832). -/
  | reassignConstant (attr : String)
  /-- The `TypeError` of `_get_valid_constant`, carrying the names of the
  accepted constant kinds (src lines 755-760). -/
  | invalidConstant (valid : List String)
  /-- Embeds `RuntimeError: Cannot set new properties on a traced module.`
  (src line 943). -/
  | frozenNewAttr
deriving DecidableEq, Repr

mutual

/-- Embeds `_get_valid_constant` (src lines 749-760): base constant kinds pass
through; tuples and lists are validated elementwise and both converted to
tuples; anything else raises a `TypeError` naming the accepted kinds. -/
def getValidConstant : ConstVal → Except SetattrErr ConstVal
  | ConstVal.pyBool b => Except.ok (ConstVal.pyBool b)
  | ConstVal.pyFloat t => Except.ok (ConstVal.pyFloat t)
  | ConstVal.pyInt n => Except.ok (ConstVal.pyInt n)
  | ConstVal.pyFunction i => Except.ok (ConstVal.pyFunction i)
  | ConstVal.pyDevice t => Except.ok (ConstVal.pyDevice t)
  | ConstVal.pyLayout t => Except.ok (ConstVal.pyLayout t)
  | ConstVal.pyDtype t => Except.ok (ConstVal.pyDtype t)
  | ConstVal.tup xs =>
      match getValidConstantList xs with
      | Except.error e => Except.error e
      | Except.ok ys => Except.ok (ConstVal.tup ys)
  | ConstVal.lst xs =>
      match getValidConstantList xs with
      | Except.error e => Except.error e
      | Except.ok ys => Except.ok (ConstVal.tup ys)
  | _ => Except.error (SetattrErr.invalidConstant constantTypeNames)

/-- Embeds `_get_valid_constant` mapped over tuple/list elements, propagating
the first `TypeError`. -/
def getValidConstantList : ConstValList → Except SetattrErr ConstValList
  | ConstValList.nil => Except.ok ConstValList.nil
  | ConstValList.cons x xs =>
      match getValidConstant x with
      | Except.error e => Except.error e
      | Except.ok y =>
          match getValidConstantList xs with
          | Except.error e => Except.error e
          | Except.ok ys => Except.ok (ConstValList.cons y ys)

end

mutual

/-- The value kinds `_get_valid_constant` accepts: the base constant
kinds, and tuples/lists whose elements are recursively accepted. -/
def validConstCore : ConstVal → Bool
  | ConstVal.tup xs => validConstCoreList xs
  | ConstVal.lst xs => validConstCoreList xs
  | v => isBaseConstantType v

/-- Embeds `validConstCore` over all elements of an inlined list. -/
def validConstCoreList : ConstValList → Bool
  | ConstValList.nil => true
  | ConstValList.cons x xs => validConstCore x && validConstCoreList xs

end

/-- The whitelisted constant kinds of `ScriptModule.__setattr__`: what
`_get_valid_constant` accepts, plus `nn.ModuleList` and `nn.Sequential`,
which are special-cased before it (src lines 833-840). -/
def whitelistedConstant (v : ConstVal) : Bool :=
  match v with
  | ConstVal.moduleList _ => true
  | ConstVal.sequential _ => true
  | _ => validConstCore v

/-- The attribute store of a `ScriptModule` instance together with its
class-level `_constants_set`. -/
structure SMState : Type where
  constants_set : List String
  attrs : List (String × ConstVal)

/-- Embeds `hasattr(self, attr)`, abstracted to presence in the attribute
store. -/
def smHasattr (st : SMState) (a : String) : Bool :=
  st.attrs.any fun p => p.1 == a

/-- Plain Python attribute assignment: overwrite an existing binding or
append a new one. -/
def smSet (st : SMState) (a : String) (v : ConstVal) : SMState :=
  if st.attrs.any (fun p => p.1 == a) then
    ⟨st.constants_set, st.attrs.map fun p => if p.1 == a then (a, v) else p⟩
  else
    ⟨st.constants_set, st.attrs ++ [(a, v)]⟩

/-- Embeds `ScriptModule.__setattr__` (src lines 828-842): names outside
`_constants_set` are assigned normally; a constant name already present
raises; `ModuleList`/`Sequential` values are wrapped; all other values go
through `_get_valid_constant`. -/
def scriptSetattr (st : SMState) (a : String) (v : ConstVal) :
    Except SetattrErr SMState :=
  if a ∉ st.constants_set then
    Except.ok (smSet st a v)
  else if smHasattr st a then
    Except.error (SetattrErr.reassignConstant a)
  else
    match v with
    | ConstVal.moduleList i => Except.ok (smSet st a (ConstVal.constModuleList i))
    | ConstVal.sequential i => Except.ok (smSet st a (ConstVal.constSequential i))
    | _ =>
        match getValidConstant v with
        | Except.error e => Except.error e
        | Except.ok w => Except.ok (smSet st a w)

/-- Embeds `Except.isOk` written out, to keep statements evaluation-friendly. -/
def exOk {ε α : Type} : Except ε α → Bool
  | Except.ok _ => true
  | Except.error _ => false

/-! ## ScriptMeta constants inheritance (spec 4.5; src lines 776-803) -/

/-- A class in an MRO, reduced to whether it declares `__constants__`
and, if so, with which names. -/
structure PyClassDecl : Type where
  declaredConstants : Option (List String)
deriving DecidableEq, Repr

/-- Embeds `getattr(cls, '__constants__', ())` (src line 789): ordinary class
attribute lookup walks the MRO (derived first) and returns the first
declaration found, defaulting to the empty tuple. -/
def getattrConstants : List PyClassDecl → List String
  | [] => []
  | c :: rest =>
      match c.declaredConstants with
      | some l => l
      | Option.none => getattrConstants rest

/-- Embeds `getattr(super(cls), '_constants_set', set())` (src line 788).  In
Python, `super(cls)` with a single argument builds an *unbound* super
object; attribute lookup on an unbound super does not delegate along the
MRO but falls back to generic lookup on the super object itself, which
has no `_constants_set`, so the default empty set is always returned. -/
def superClassConstants (_mro : List PyClassDecl) : Finset String := ∅

/-- Embeds `cls._constants_set` as computed by `ScriptMeta.__init__`
(src lines 788-789):
`set(getattr(cls, '__constants__', ())).union(super_constants)`. -/
def scriptMetaConstantsSet (mro : List PyClassDecl) : Finset String :=
  (getattrConstants mro).toFinset ∪ superClassConstants mro

/-- The constants set the claim describes: the union of every class in
the MRO of its own declared `__constants__`. -/
def claimedConstantsSet (mro : List PyClassDecl) : Finset String :=
  (mro.flatMap fun c => c.declaredConstants.getD []).toFinset

/-- A base class declaring `__constants__ = ['a']` with a subclass
declaring `__constants__ = ['b']` (MRO listed derived first). -/
def mroBugExample : List PyClassDecl := [⟨some ["b"]⟩, ⟨some ["a"]⟩]

/-! ## TracedModule.__setattr__ freeze rule (src lines 892-943) -/

/-- The attribute store of a `TracedModule` instance together with the
`_TracedModule__frozen` flag (set by `_freeze` at the end of
construction).  `TracedModule` and its bases declare no `__constants__`,
so the inherited `ScriptModule.__setattr__` runs with an empty
`_constants_set`. -/
structure TMState : Type where
  frozen : Bool
  attrs : List (String × ConstVal)

/-- Embeds `hasattr(self, attr)` on a traced module, abstracted to presence in
the attribute store. -/
def tmHasattr (st : TMState) (a : String) : Bool :=
  st.attrs.any fun p => p.1 == a

/-- Embeds `TracedModule.__setattr__` (src lines 940-943): before freezing, or
for an attribute that already exists, defer to the superclass assignment
(`ScriptModule.__setattr__` with the empty constants set); otherwise
raise `RuntimeError`. -/
def tracedSetattr (st : TMState) (a : String) (v : ConstVal) :
    Except SetattrErr TMState :=
  if !st.frozen || tmHasattr st a then
    match scriptSetattr ⟨[], st.attrs⟩ a v with
    | Except.ok sm => Except.ok ⟨st.frozen, sm.attrs⟩
    | Except.error e => Except.error e
  else
    Except.error SetattrErr.frozenNewAttr

/-! ## TracedModule construction and aliasing (spec 7; src lines 892-929) -/

mutual

/-- The `torch.nn.Module` tree handed to `TracedModule.__init__`: named
parameters and buffers (each possibly `None`, identified by tensor object
identity), a flag for registered forward/backward hooks, and named
submodules.  `NNSubs` is an inlined list of named children. -/
inductive NNModule : Type where
  | mk (params : List (String × Option Nat))
       (buffers : List (String × Option Nat))
       (hooks : Bool)
       (subs : NNSubs)

/-- Inlined list of named submodules. -/
inductive NNSubs : Type where
  | nil
  | cons (name : String) (m : NNModule) (rest : NNSubs)

end

/-- An error raised during `TracedModule.__init__`. -/
inductive TracedErr : Type where
  /-- Embeds `ValueError: TracedModules do not support parameter sharing between
  modules` (src line 909). -/
  | aliasing
  /-- Embeds `ValueError: Modules that have hooks assigned cannot be compiled`
  (src line 924). -/
  | hookedModule
deriving DecidableEq, Repr

/-- The `check_unique` registrations of one parameter/buffer dict
(src lines 907-921): entries that are `None` are skipped; a tensor
identity already in `id_set` raises the aliasing `ValueError`, otherwise
it is added. -/
def checkUniqueList (id_set : List Nat) : List (Option Nat) → Except TracedErr (List Nat)
  | [] => Except.ok id_set
  | Option.none :: rest => checkUniqueList id_set rest
  | some i :: rest =>
      if i ∈ id_set then Except.error TracedErr.aliasing
      else checkUniqueList (i :: id_set) rest

mutual

/-- Embeds `TracedModule.__init__` (src lines 895-929), reduced to the side
conditions it checks while walking the tree: register and uniqueness-check
parameters, then buffers, then reject hook-bearing modules, then recurse
into submodules threading the shared `id_set`.  Returns the final
`id_set` or the first error raised. -/
def tracedModuleInit : NNModule → List Nat → Except TracedErr (List Nat)
  | NNModule.mk params buffers hooks subs, id_set =>
      match checkUniqueList id_set (params.map Prod.snd) with
      | Except.error e => Except.error e
      | Except.ok s1 =>
          match checkUniqueList s1 (buffers.map Prod.snd) with
          | Except.error e => Except.error e
          | Except.ok s2 =>
              if hooks then Except.error TracedErr.hookedModule
              else tracedInitSubs subs s2

/-- The `for name, submodule in orig._modules.items()` recursion of
`TracedModule.__init__` (src lines 926-927). -/
def tracedInitSubs : NNSubs → List Nat → Except TracedErr (List Nat)
  | NNSubs.nil, s => Except.ok s
  | NNSubs.cons _ m rest, s =>
      match tracedModuleInit m s with
      | Except.error e => Except.error e
      | Except.ok s1 => tracedInitSubs rest s1

end

/-- A step performed by `TracedModule.__init__` in traversal order:
registering one tensor identity, or hitting the hook check of a module
with hooks. -/
inductive TEvent : Type where
  | addId (i : Nat)
  | hookStop
deriving DecidableEq, Repr

/-- Replay a linear event sequence against an `id_set`: duplicate
identities raise the aliasing error, a hook stop raises the hook error. -/
def runEvents : List TEvent → List Nat → Except TracedErr (List Nat)
  | [], s => Except.ok s
  | TEvent.addId i :: rest, s =>
      if i ∈ s then Except.error TracedErr.aliasing
      else runEvents rest (i :: s)
  | TEvent.hookStop :: _, _ => Except.error TracedErr.hookedModule

mutual

/-- The linear event sequence of `TracedModule.__init__` on a module
tree, in traversal order. -/
def eventsOf : NNModule → List TEvent
  | NNModule.mk params buffers hooks subs =>
      ((params.map Prod.snd).filterMap id).map TEvent.addId ++
      (((buffers.map Prod.snd).filterMap id).map TEvent.addId ++
       ((if hooks then [TEvent.hookStop] else []) ++
        eventsOfSubs subs))

/-- Embeds `eventsOf` over an inlined submodule list. -/
def eventsOfSubs : NNSubs → List TEvent
  | NNSubs.nil => []
  | NNSubs.cons _ m rest => eventsOf m ++ eventsOfSubs rest

end

/-- The tensor identities registered by an event sequence, in order. -/
def idsOfEvents (evs : List TEvent) : List Nat :=
  evs.filterMap fun e =>
    match e with
    | TEvent.addId i => some i
    | TEvent.hookStop => Option.none

/-- All non-`None` parameter and buffer tensor identities reachable in a
module tree, in traversal order. -/
def collectIds (m : NNModule) : List Nat :=
  idsOfEvents (eventsOf m)

/-- A module tree sharing one tensor identity between a root parameter
and a submodule parameter, with no hooks anywhere. -/
def aliasedTree : NNModule :=
  NNModule.mk [("weight", some 1)] [] false
    (NNSubs.cons "child" (NNModule.mk [("weight", some 1)] [] false NNSubs.nil) NNSubs.nil)

/-- A module tree whose parameter and buffer identities are pairwise
distinct. -/
def distinctTree : NNModule :=
  NNModule.mk [("weight", some 1)] [("running", some 2)] false
    (NNSubs.cons "child" (NNModule.mk [("weight", some 3)] [] false NNSubs.nil) NNSubs.nil)

/-! ## Attribute views (spec 4.3; src lines 638-740) -/

/-- An error raised by the ordered attribute views. -/
inductive DictErr : Type where
  /-- Embeds `RuntimeError: _parameters or _modules alive after module is dead`
  (src line 646). -/
  | ownerDead
  /-- Embeds `KeyError` (src lines 718, 739, and Python dict lookup at 698). -/
  | keyError (k : String)
  /-- Embeds `RuntimeError: cannot re-assign modules in a ScriptModule`
  (src line 691). -/
  | reassignModule
deriving DecidableEq, Repr

/-- A submodule value as stored by `OrderedModuleDict`: its object
identity and whether it is a `ScriptModule` (compiled) or a Python-only
module. -/
structure PyModuleVal : Type where
  id : Nat
  isScript : Bool
deriving DecidableEq, Repr

/-- The state of an `OrderedModuleDict` (src lines 671-698): the weakref
liveness of the owning module, the names registered in the C++
`script::Module`, and the Python-side shadow dict holding both compiled
and Python-only submodules. -/
structure ModuleDictState : Type where
  ownerAlive : Bool
  cppModules : List (String × Nat)
  pythonModules : List (String × PyModuleVal)
deriving DecidableEq, Repr

/-- Embeds `k in self._python_modules` (src line 687). -/
def omdContains (st : ModuleDictState) (k : String) : Bool :=
  st.pythonModules.any fun p => p.1 == k

/-- Embeds `OrderedModuleDict.__setitem__` (src lines 689-695): re-assigning a
present name raises; a `ScriptModule` value is additionally registered
with the C++ module (which checks the weakref via the `module` property);
the Python-side dict always records the value. -/
def omdSetItem (st : ModuleDictState) (k : String) (v : PyModuleVal) :
    Except DictErr ModuleDictState :=
  if omdContains st k then
    Except.error DictErr.reassignModule
  else if v.isScript then
    if !st.ownerAlive then
      Except.error DictErr.ownerDead
    else
      Except.ok { st with cppModules := st.cppModules ++ [(k, v.id)],
                          pythonModules := st.pythonModules ++ [(k, v)] }
  else
    Except.ok { st with pythonModules := st.pythonModules ++ [(k, v)] }

/-- Embeds `OrderedModuleDict.__getitem__` (src lines 697-698): a plain lookup
in the Python-side dict - it does not consult the weakref-guarded
`module` property. -/
def omdGetItem (st : ModuleDictState) (k : String) : Except DictErr PyModuleVal :=
  match st.pythonModules.find? (fun p => p.1 == k) with
  | some p => Except.ok p.2
  | Option.none => Except.error (DictErr.keyError k)

/-- The native storage of a C++ `script::Module`, modelled from the spec:
an ordered, name-keyed table of parameter/buffer slots
`(name, tensor id, is_buffer)` behind `_get_parameters`,
`_has_parameter`, `_has_buffer` and `_get_parameter`. -/
structure ScriptModuleNative : Type where
  parameters : List (String × Nat × Bool)
deriving DecidableEq, Repr

/-- The state of an `OrderedParameterDict`/`OrderedBufferDict`
(src lines 638-740): the weak back-reference to the owning module,
`none` once the owner has been destroyed. -/
structure ParamViewState : Type where
  owner : Option ScriptModuleNative
deriving DecidableEq, Repr

/-- The `module` property (src lines 642-647): dereference the weakref,
raising the lifecycle `RuntimeError` when the owner is gone. -/
def viewModule (vs : ParamViewState) : Except DictErr ScriptModuleNative :=
  match vs.owner with
  | some m => Except.ok m
  | Option.none => Except.error DictErr.ownerDead

/-- Embeds `_has_parameter` - modelled from the spec: a name-keyed lookup in
native storage restricted to non-buffer entries. -/
def nativeHasParameter (m : ScriptModuleNative) (k : String) : Bool :=
  m.parameters.any fun e => e.1 == k && e.2.2 == false

/-- Embeds `_has_buffer` - modelled from the spec: a name-keyed lookup in
native storage restricted to buffer entries. -/
def nativeHasBuffer (m : ScriptModuleNative) (k : String) : Bool :=
  m.parameters.any fun e => e.1 == k && e.2.2 == true

/-- Embeds `_get_parameter` - modelled from the spec: fetch a slot value by
name. -/
def nativeGetParameter (m : ScriptModuleNative) (k : String) : Option Nat :=
  (m.parameters.find? fun e => e.1 == k).map fun e => e.2.1

/-- Embeds `OrderedParameterDict.__getitem__` (src lines 716-719):
`if k not in self: raise KeyError(k)` - where `__contains__` consults
`self.module` (raising the lifecycle error first when the owner is dead) -
then `self.module._get_parameter(k)`. -/
def opdGetItem (vs : ParamViewState) (k : String) : Except DictErr Nat :=
  match viewModule vs with
  | Except.error e => Except.error e
  | Except.ok m =>
      if !nativeHasParameter m k then Except.error (DictErr.keyError k)
      else
        match viewModule vs with
        | Except.error e => Except.error e
        | Except.ok m2 =>
            match nativeGetParameter m2 k with
            | some v => Except.ok v
            | Option.none => Except.error (DictErr.keyError k)

/-- Embeds `OrderedBufferDict.__getitem__` (src lines 737-740), same shape as
the parameter view but keyed on `_has_buffer`. -/
def obdGetItem (vs : ParamViewState) (k : String) : Except DictErr Nat :=
  match viewModule vs with
  | Except.error e => Except.error e
  | Except.ok m =>
      if !nativeHasBuffer m k then Except.error (DictErr.keyError k)
      else
        match viewModule vs with
        | Except.error e => Except.error e
        | Except.ok m2 =>
            match nativeGetParameter m2 k with
            | some v => Except.ok v
            | Option.none => Except.error (DictErr.keyError k)

/-- A module dict whose owner has been destroyed but whose Python-side
cache still holds a registered submodule. -/
def deadOwnerModuleDict : ModuleDictState :=
  { ownerAlive := false
    cppModules := []
    pythonModules := [("child", ⟨7, false⟩)] }

mutual

/-- Rebuilding a value from its own flattening consumes exactly its leaves. -/
theorem unflat_flatten : (v : PyValue) → (rest : List Nat) →
    unflat (flatten v).2 ((flatten v).1 ++ rest) = some (v, rest)
  | PyValue.tensor i, rest => by simp [flatten, unflat]
  | PyValue.tuple xs, rest => by
      simp [flatten, unflat, unflatList_flattenList xs rest]
  | PyValue.pylist xs, rest => by
      simp [flatten, unflat, unflatList_flattenList xs rest]
  | PyValue.pynone, rest => by simp [flatten, unflat]

/-- List form of `unflat_flatten`. -/
theorem unflatList_flattenList : (xs : PyValueList) → (rest : List Nat) →
    unflatList (flattenList xs).2 ((flattenList xs).1 ++ rest) = some (xs, rest)
  | PyValueList.nil, rest => by simp [flattenList, unflatList]
  | PyValueList.cons x xs, rest => by
      have h1 := unflat_flatten x ((flattenList xs).1 ++ rest)
      have h2 := unflatList_flattenList xs rest
      simp [flattenList, unflatList, List.append_assoc, h1, h2]

end

/-- The flatten/unflatten round trip is the identity. -/
theorem unflatten_flatten (v : PyValue) :
    unflatten (flatten v).1 (flatten v).2 = some v := by
  have h := unflat_flatten v []
  simp at h
  simp [unflatten, h]

/-- C8: for every nested value built from tensors, tuples, lists and
`None`, `unflatten` applied to the result of `flatten` reconstructs a
structurally identical value; non-tensor leaves live in the descriptor
and only tensors appear in the flat leaf sequence (by the type of
`flatten`). -/
theorem flatten_unflatten_roundtrip (v : PyValue) :
    unflatten (flatten v).1 (flatten v).2 = some v :=
  unflatten_flatten v

/-- C2: in `LegacyTracedModule.forward`, when the traced body raises, the
session is abandoned (the tracer event after `enter` is `abandon`, never
`exit`) and the exception propagates; when the body returns normally, the
session is committed via `exit` with the flattened outputs and `abandon`
is never emitted. -/
theorem legacyForward_session (args : PyValue) (ms : List Nat)
    (inner : PyValue → Except String PyValue) :
    (∀ e, inner args = Except.error e →
      legacyForward args ms inner =
        (Except.error e,
         [TracerEvent.enter ((flatten args).1 ++ ms), TracerEvent.abandon])) ∧
    (∀ out, inner args = Except.ok out →
      legacyForward args ms inner =
        (Except.ok out,
         [TracerEvent.enter ((flatten args).1 ++ ms),
          TracerEvent.exit (flatten out).1])) := by
  have htake : ((flatten args).1 ++ ms).take (flatten args).1.length = (flatten args).1 :=
    List.take_left _ _
  constructor
  · intro e he
    simp [legacyForward, htake, unflatten_flatten, he]
  · intro out ho
    simp [legacyForward, htake, unflatten_flatten, ho]

/-- Witness for C2: a raising body yields `enter` then `abandon` and the
error propagates; an identity body yields `enter` then `exit` with the
flattened outputs. -/
theorem legacyForward_session_witness :
    legacyForward (PyValue.tuple (PyValueList.cons (PyValue.tensor 3)
        (PyValueList.cons PyValue.pynone PyValueList.nil))) [9]
        (fun _ => Except.error "boom") =
      (Except.error "boom",
       [TracerEvent.enter ((flatten (PyValue.tuple (PyValueList.cons (PyValue.tensor 3)
          (PyValueList.cons PyValue.pynone PyValueList.nil)))).1 ++ [9]),
        TracerEvent.abandon]) ∧
    legacyForward (PyValue.tensor 3) [] (fun v => Except.ok v) =
      (Except.ok (PyValue.tensor 3),
       [TracerEvent.enter ((flatten (PyValue.tensor 3)).1 ++ []),
        TracerEvent.exit (flatten (PyValue.tensor 3)).1]) :=
  ⟨(legacyForward_session _ _ _).1 "boom" rfl,
   (legacyForward_session _ _ _).2 (PyValue.tensor 3) rfl⟩

/-- C9: the `scope(name)` context manager propagates the body outcome
unchanged; with an active tracing session it pushes the scope name before
the body and pops exactly once afterwards, also when the body raised;
with no active session it performs no scope events at all. -/
theorem scope_exception_safe {ε α : Type} (tracingActive : Bool) (n : String)
    (body : Except ε α × List ScopeEvent) :
    (scopeRun tracingActive n body).1 = body.1 ∧
    (tracingActive = true →
      (scopeRun tracingActive n body).2 =
        ScopeEvent.push n :: (body.2 ++ [ScopeEvent.pop])) ∧
    (tracingActive = false → (scopeRun tracingActive n body).2 = body.2) := by
  cases tracingActive <;> simp [scopeRun]

/-- Witness for C9: with tracing active and a raising body, the events
are exactly one push followed by one pop; with tracing inactive there are
none; the error propagates in both cases. -/
theorem scope_exception_safe_witness :
    (scopeRun true "rnn" ((Except.error "boom" : Except String Unit), [])).2 =
      [ScopeEvent.push "rnn", ScopeEvent.pop] ∧
    (scopeRun false "rnn" ((Except.error "boom" : Except String Unit), [])).2 = [] ∧
    (scopeRun true "rnn" ((Except.error "boom" : Except String Unit), [])).1 =
      Except.error "boom" := by
  refine ⟨?_, ?_, ?_⟩
  · simpa using (scope_exception_safe true "rnn"
      ((Except.error "boom" : Except String Unit), [])).2.1 rfl
  · simpa using (scope_exception_safe false "rnn"
      ((Except.error "boom" : Except String Unit), [])).2.2 rfl
  · simpa using (scope_exception_safe true "rnn"
      ((Except.error "boom" : Except String Unit), [])).1

/-- One verifier iteration returns normally exactly when no execution
raised and all output comparisons were within tolerance. -/
theorem checkTraceOne_ok_iff (env : CheckRunEnv) :
    checkTraceOne env = Except.ok () ↔ outputMismatch env = false := by
  unfold checkTraceOne outputMismatch
  cases ht : env.tracedRun with
  | error e => simp
  | ok a =>
    cases hf : env.fnRun with
    | error e => simp
    | ok b =>
      cases hc : env.checkRun with
      | error e => cases hlf : listClose env a b <;> simp [hlf]
      | ok c =>
        cases hlf : listClose env a b <;> cases hlc : listClose env a c <;>
          simp [hlf, hlc]

/-- Every error a verifier iteration raises carries the whole diagnostics
triple of `graph_diagnostic_info`. -/
theorem checkTraceOne_error_diag (env : CheckRunEnv) (err : TracingCheckErr)
    (h : checkTraceOne env = Except.error err) : err.diag = env.diagInfo := by
  unfold checkTraceOne at h
  cases ht : env.tracedRun with
  | error e => rw [ht] at h; cases h; rfl
  | ok a =>
    rw [ht] at h
    cases hf : env.fnRun with
    | error e => rw [hf] at h; cases h; rfl
    | ok b =>
      rw [hf] at h
      dsimp only at h
      by_cases hlf : listClose env a b = false
      · rw [if_pos hlf] at h; cases h; rfl
      · rw [if_neg hlf] at h
        cases hc : env.checkRun with
        | error e => rw [hc] at h; cases h; rfl
        | ok c =>
          rw [hc] at h
          dsimp only at h
          by_cases hlc : listClose env a c = false
          · rw [if_pos hlc] at h; cases h; rfl
          · rw [if_neg hlc] at h; cases h

/-- C1 (amended): `_check_trace` raises a `TracingCheckError` exactly
when, for some check input, one of the three executions (traced module,
original callable, re-traced check module) raises or the traced outputs
differ from the function or check outputs beyond tolerance; a
graph-structure diff or tensor-constant diff alone raises nothing, but
every raised error is a single structured object carrying the full
diagnostics triple (graph diff, constant diff, nondeterminism warning). -/
theorem checkTrace_error_carries_diagnostics (envs : List CheckRunEnv) :
    (checkTrace envs = Except.ok () ↔ ∀ env ∈ envs, outputMismatch env = false) ∧
    (∀ err, checkTrace envs = Except.error err →
      ∃ env, env ∈ envs ∧ err.diag = env.diagInfo ∧ outputMismatch env = true) := by
  induction envs with
  | nil => simp [checkTrace]
  | cons env rest ih =>
    cases h1 : checkTraceOne env with
    | error e =>
      have hmm : outputMismatch env = true := by
        cases hm : outputMismatch env
        · exact absurd ((checkTraceOne_ok_iff env).mpr hm) (by simp [h1])
        · rfl
      constructor
      · constructor
        · intro h; simp [checkTrace, h1] at h
        · intro h
          exact absurd (h env (List.mem_cons_self _ _)) (by simp [hmm])
      · intro err herr
        simp [checkTrace, h1] at herr
        exact ⟨env, List.mem_cons_self _ _, herr ▸ checkTraceOne_error_diag env e h1, hmm⟩
    | ok u =>
      cases u
      have hok : outputMismatch env = false := (checkTraceOne_ok_iff env).mp h1
      constructor
      · constructor
        · intro h full
          intro hmem
          rcases List.mem_cons.mp hmem with rfl | hmem'
          · exact hok
          · exact ih.1.mp (by simpa [checkTrace, h1] using h) full hmem'
        · intro h
          simp only [checkTrace, h1]
          exact ih.1.mpr fun e he => h e (List.mem_cons_of_mem _ he)
      · intro err herr
        simp only [checkTrace, h1] at herr
        rcases ih.2 err herr with ⟨e, he, hd, hm⟩
        exact ⟨e, List.mem_cons_of_mem _ he, hd, hm⟩

/-- Counterexample for C1 as stated: a verification run whose
canonicalized graphs differ (a nonempty graph diff diagnostic) but whose
three executions succeed with matching outputs raises no
`TracingCheckError` at all - the graph diff alone does not cause an
error. -/
theorem checkTrace_graphdiff_raises_nothing :
    graphDiffOnlyEnv.diagInfo.graphDiffErrors = some "graph diff" ∧
    checkTrace [graphDiffOnlyEnv] = Except.ok () :=
  ⟨rfl, rfl⟩

/-- The error value `_check_trace` raises on `checkRunFailsEnv`. -/
def checkRunFailsErr : TracingCheckErr :=
  ⟨⟨some "gd", some "td", some "warn"⟩, some (runCheckExcMsg ++ "boom")⟩

/-- Witness for C1 (amended): on a run where the re-traced check module
raises, the raised error carries the full diagnostics triple of that
run. -/
theorem checkTrace_error_carries_diagnostics_witness :
    checkRunFailsErr.diag = checkRunFailsEnv.diagInfo ∧
    outputMismatch checkRunFailsEnv = true := by
  have h := (checkTrace_error_carries_diagnostics [checkRunFailsEnv]).2
    checkRunFailsErr rfl
  rcases h with ⟨env, henv, hd, hm⟩
  rcases List.mem_singleton.mp henv with rfl
  exact ⟨hd, hm⟩

mutual

/-- `_get_valid_constant` succeeds exactly on the kinds of
`validConstCore`. -/
theorem getValidConstant_ok : (v : ConstVal) →
    exOk (getValidConstant v) = validConstCore v
  | ConstVal.pyBool _ => rfl
  | ConstVal.pyFloat _ => rfl
  | ConstVal.pyInt _ => rfl
  | ConstVal.pyFunction _ => rfl
  | ConstVal.pyDevice _ => rfl
  | ConstVal.pyLayout _ => rfl
  | ConstVal.pyDtype _ => rfl
  | ConstVal.moduleList _ => rfl
  | ConstVal.sequential _ => rfl
  | ConstVal.constModuleList _ => rfl
  | ConstVal.constSequential _ => rfl
  | ConstVal.other _ => rfl
  | ConstVal.tup xs => by
      have h := getValidConstantList_ok xs
      cases hl : getValidConstantList xs with
      | error e => rw [hl] at h; simpa [getValidConstant, validConstCore, hl, exOk] using h
      | ok ys => rw [hl] at h; simpa [getValidConstant, validConstCore, hl, exOk] using h
  | ConstVal.lst xs => by
      have h := getValidConstantList_ok xs
      cases hl : getValidConstantList xs with
      | error e => rw [hl] at h; simpa [getValidConstant, validConstCore, hl, exOk] using h
      | ok ys => rw [hl] at h; simpa [getValidConstant, validConstCore, hl, exOk] using h

/-- List form of `getValidConstant_ok`. -/
theorem getValidConstantList_ok : (xs : ConstValList) →
    exOk (getValidConstantList xs) = validConstCoreList xs
  | ConstValList.nil => rfl
  | ConstValList.cons x xs => by
      have hx := getValidConstant_ok x
      cases h1 : getValidConstant x with
      | error e =>
          rw [h1] at hx
          have hx1 : validConstCore x = false := by simpa [exOk] using hx.symm
          simp [getValidConstantList, validConstCoreList, h1, exOk, hx1]
      | ok y =>
          rw [h1] at hx
          have hx1 : validConstCore x = true := by simpa [exOk] using hx.symm
          have hxs := getValidConstantList_ok xs
          cases h2 : getValidConstantList xs with
          | error e =>
              rw [h2] at hxs
              have hxs1 : validConstCoreList xs = false := by simpa [exOk] using hxs.symm
              simp [getValidConstantList, validConstCoreList, h1, h2, exOk, hx1, hxs1]
          | ok ys =>
              rw [h2] at hxs
              have hxs1 : validConstCoreList xs = true := by simpa [exOk] using hxs.symm
              simp [getValidConstantList, validConstCoreList, h1, h2, exOk, hx1, hxs1]

end

mutual

/-- The only error `_get_valid_constant` raises is the `TypeError`
naming the accepted constant kinds. -/
theorem getValidConstant_error : (v : ConstVal) → (err : SetattrErr) →
    getValidConstant v = Except.error err →
    err = SetattrErr.invalidConstant constantTypeNames
  | ConstVal.pyBool _, _ => by intro h; cases h
  | ConstVal.pyFloat _, _ => by intro h; cases h
  | ConstVal.pyInt _, _ => by intro h; cases h
  | ConstVal.pyFunction _, _ => by intro h; cases h
  | ConstVal.pyDevice _, _ => by intro h; cases h
  | ConstVal.pyLayout _, _ => by intro h; cases h
  | ConstVal.pyDtype _, _ => by intro h; cases h
  | ConstVal.moduleList _, _ => by intro h; cases h; rfl
  | ConstVal.sequential _, _ => by intro h; cases h; rfl
  | ConstVal.constModuleList _, _ => by intro h; cases h; rfl
  | ConstVal.constSequential _, _ => by intro h; cases h; rfl
  | ConstVal.other _, _ => by intro h; cases h; rfl
  | ConstVal.tup xs, err => by
      intro h
      cases hl : getValidConstantList xs with
      | error e =>
          have := getValidConstantList_error xs e hl
          rw [getValidConstant, hl] at h
          cases h
          exact this
      | ok ys => rw [getValidConstant, hl] at h; cases h
  | ConstVal.lst xs, err => by
      intro h
      cases hl : getValidConstantList xs with
      | error e =>
          have := getValidConstantList_error xs e hl
          rw [getValidConstant, hl] at h
          cases h
          exact this
      | ok ys => rw [getValidConstant, hl] at h; cases h

/-- List form of `getValidConstant_error`. -/
theorem getValidConstantList_error : (xs : ConstValList) → (err : SetattrErr) →
    getValidConstantList xs = Except.error err →
    err = SetattrErr.invalidConstant constantTypeNames
  | ConstValList.nil, _ => by intro h; cases h
  | ConstValList.cons x xs, err => by
      intro h
      cases h1 : getValidConstant x with
      | error e =>
          have := getValidConstant_error x e h1
          rw [getValidConstantList, h1] at h
          cases h
          exact this
      | ok y =>
          rw [getValidConstantList, h1] at h
          cases h2 : getValidConstantList xs with
          | error e =>
              have := getValidConstantList_error xs e h2
              rw [h2] at h
              cases h
              exact this
          | ok ys => rw [h2] at h; cases h

end

/-- On a constant name not yet assigned, `ScriptModule.__setattr__`
reduces to the value dispatch of its final branch. -/
theorem scriptSetattr_fresh (st : SMState) (a : String) (v : ConstVal)
    (hc : a ∈ st.constants_set) (hh : smHasattr st a = false) :
    scriptSetattr st a v =
      (match v with
       | ConstVal.moduleList i => Except.ok (smSet st a (ConstVal.constModuleList i))
       | ConstVal.sequential i => Except.ok (smSet st a (ConstVal.constSequential i))
       | _ =>
         match getValidConstant v with
         | Except.error e => Except.error e
         | Except.ok w => Except.ok (smSet st a w)) := by
  unfold scriptSetattr
  rw [if_neg (fun h => h hc), if_neg (by simp [hh])]

/-- C3: for a name in the declared constants set of a `ScriptModule`,
the first assignment succeeds exactly when the value is of a whitelisted
constant kind (bool, float, int, function, device, layout, dtype,
tuples/lists of such values, or a ModuleList/Sequential), any later
assignment of the same name raises the re-assignment error, and a
non-whitelisted value raises the `TypeError` naming the accepted
kinds. -/
theorem scriptModule_constant_assignment (st : SMState) (a : String) (v : ConstVal)
    (hc : a ∈ st.constants_set) :
    (smHasattr st a = true →
      scriptSetattr st a v = Except.error (SetattrErr.reassignConstant a)) ∧
    (smHasattr st a = false →
      exOk (scriptSetattr st a v) = whitelistedConstant v) ∧
    (smHasattr st a = false → whitelistedConstant v = false →
      scriptSetattr st a v = Except.error (SetattrErr.invalidConstant constantTypeNames)) := by
  refine ⟨?_, ?_, ?_⟩
  · intro hh
    unfold scriptSetattr
    rw [if_neg (fun h => h hc), if_pos (by simp [hh])]
  · intro hh
    rw [scriptSetattr_fresh st a v hc hh]
    cases v <;>
      simp only [whitelistedConstant, validConstCore, isBaseConstantType,
        getValidConstant, exOk]
    case tup xs =>
      have h := getValidConstantList_ok xs
      cases hl : getValidConstantList xs with
      | error e =>
          rw [hl] at h
          simp only [hl]
          simpa [exOk, validConstCore] using h
      | ok ys =>
          rw [hl] at h
          simp only [hl]
          simpa [exOk, validConstCore] using h
    case lst xs =>
      have h := getValidConstantList_ok xs
      cases hl : getValidConstantList xs with
      | error e =>
          rw [hl] at h
          simp only [hl]
          simpa [exOk, validConstCore] using h
      | ok ys =>
          rw [hl] at h
          simp only [hl]
          simpa [exOk, validConstCore] using h
  · intro hh hw
    rw [scriptSetattr_fresh st a v hc hh]
    have hvc : validConstCore v = false := by
      cases v <;> simp_all [whitelistedConstant]
    have hok := getValidConstant_ok v
    cases hg : getValidConstant v with
    | ok w =>
        rw [hg] at hok
        rw [hvc] at hok
        simp [exOk] at hok
    | error e =>
        have he := getValidConstant_error v e hg
        cases v <;> simp_all [getValidConstant, whitelistedConstant]

/-- Witness for C3: on a module declaring the constant name `c`, a first
assignment of an int succeeds matching the whitelist, a tensor-kind value
raises the `TypeError` naming the accepted kinds, and a second assignment
raises the re-assignment error. -/
theorem scriptModule_constant_assignment_witness :
    exOk (scriptSetattr ⟨["c"], []⟩ "c" (ConstVal.pyInt 5)) =
      whitelistedConstant (ConstVal.pyInt 5) ∧
    scriptSetattr ⟨["c"], [("c", ConstVal.pyInt 5)]⟩ "c" (ConstVal.pyInt 7) =
      Except.error (SetattrErr.reassignConstant "c") ∧
    scriptSetattr ⟨["c"], []⟩ "c" (ConstVal.other "Tensor") =
      Except.error (SetattrErr.invalidConstant constantTypeNames) := by
  refine ⟨?_, ?_, ?_⟩
  · exact (scriptModule_constant_assignment ⟨["c"], []⟩ "c" (ConstVal.pyInt 5)
      (by simp)).2.1 (by simp [smHasattr])
  · exact (scriptModule_constant_assignment ⟨["c"], [("c", ConstVal.pyInt 5)]⟩ "c"
      (ConstVal.pyInt 7) (by simp)).1 (by simp [smHasattr])
  · exact (scriptModule_constant_assignment ⟨["c"], []⟩ "c" (ConstVal.other "Tensor")
      (by simp)).2.2 (by simp [smHasattr]) (by simp [whitelistedConstant, validConstCore,
        isBaseConstantType])

/-- The code-side constants set never sees ancestors: the unbound
`super(cls)` lookup contributes nothing, so `_constants_set` is just the
MRO-nearest `__constants__` declaration. -/
theorem scriptMetaConstantsSet_eq_nearest (mro : List PyClassDecl) :
    scriptMetaConstantsSet mro = (getattrConstants mro).toFinset := by
  simp [scriptMetaConstantsSet, superClassConstants]

/-- C4 (code bug): with a base class declaring `__constants__ = ['a']`
and a subclass declaring `__constants__ = ['b']`, `ScriptMeta.__init__`
computes a constants set that has lost the inherited name `a`, because
`getattr(super(cls), '_constants_set', set())` on an unbound super object
always yields the default empty set; the claimed (and spec-intended)
union over the inheritance chain contains `a`. -/
theorem scriptMeta_constants_set_drops_inherited :
    scriptMetaConstantsSet mroBugExample = {"b"} ∧
    "a" ∉ scriptMetaConstantsSet mroBugExample ∧
    "a" ∈ claimedConstantsSet mroBugExample ∧
    scriptMetaConstantsSet mroBugExample ≠ claimedConstantsSet mroBugExample := by
  refine ⟨?_, ?_, ?_, ?_⟩ <;> decide

/-- Replay distributes over append when the first part errors. -/
theorem runEvents_append_err (l1 l2 : List TEvent) (s : List Nat) (e : TracedErr)
    (h : runEvents l1 s = Except.error e) :
    runEvents (l1 ++ l2) s = Except.error e := by
  induction l1 generalizing s with
  | nil => simp [runEvents] at h
  | cons ev rest ih =>
    cases ev with
    | addId i =>
      rw [List.cons_append, runEvents]
      rw [runEvents] at h
      by_cases hi : i ∈ s
      · rwa [if_pos hi] at h ⊢
      · rw [if_neg hi] at h ⊢
        exact ih _ h
    | hookStop =>
      rw [List.cons_append, runEvents]
      rw [runEvents] at h
      exact h

/-- Replay distributes over append when the first part succeeds. -/
theorem runEvents_append_ok (l1 l2 : List TEvent) (s s1 : List Nat)
    (h : runEvents l1 s = Except.ok s1) :
    runEvents (l1 ++ l2) s = runEvents l2 s1 := by
  induction l1 generalizing s with
  | nil =>
    rw [runEvents] at h
    cases h
    simp
  | cons ev rest ih =>
    cases ev with
    | addId i =>
      rw [List.cons_append, runEvents]
      rw [runEvents] at h
      by_cases hi : i ∈ s
      · rw [if_pos hi] at h; cases h
      · rw [if_neg hi] at h ⊢
        exact ih _ h
    | hookStop =>
      rw [runEvents] at h
      cases h

/-- The `check_unique` loop over one parameter dict is the replay of its
`addId` events. -/
theorem checkUniqueList_eq_runEvents (opts : List (Option Nat)) (s : List Nat) :
    checkUniqueList s opts = runEvents ((opts.filterMap id).map TEvent.addId) s := by
  induction opts generalizing s with
  | nil => rfl
  | cons o rest ih =>
    cases o with
    | none => simpa [checkUniqueList, List.filterMap_cons] using ih s
    | some i =>
      by_cases hi : i ∈ s <;>
        simp [checkUniqueList, runEvents, List.filterMap_cons, hi, ih]

mutual

/-- `TracedModule.__init__` performs exactly the linear event sequence of
the tree, in traversal order. -/
theorem tracedModuleInit_eq_runEvents : (m : NNModule) → (s : List Nat) →
    tracedModuleInit m s = runEvents (eventsOf m) s
  | NNModule.mk params buffers hooks subs, s => by
      rw [tracedModuleInit, eventsOf]
      have hp := checkUniqueList_eq_runEvents (params.map Prod.snd) s
      cases h1 : checkUniqueList s (params.map Prod.snd) with
      | error e =>
          dsimp only
          exact (runEvents_append_err _ _ _ _ (hp ▸ h1)).symm
      | ok s1 =>
          dsimp only
          rw [runEvents_append_ok _ _ _ _ (hp ▸ h1)]
          have hb := checkUniqueList_eq_runEvents (buffers.map Prod.snd) s1
          cases h2 : checkUniqueList s1 (buffers.map Prod.snd) with
          | error e =>
              dsimp only
              exact (runEvents_append_err _ _ _ _ (hb ▸ h2)).symm
          | ok s2 =>
              dsimp only
              rw [runEvents_append_ok _ _ _ _ (hb ▸ h2)]
              cases hooks with
              | true => simp [runEvents]
              | false =>
                  simpa using tracedInitSubs_eq_runEvents subs s2

/-- List form of `tracedModuleInit_eq_runEvents`. -/
theorem tracedInitSubs_eq_runEvents : (l : NNSubs) → (s : List Nat) →
    tracedInitSubs l s = runEvents (eventsOfSubs l) s
  | NNSubs.nil, s => rfl
  | NNSubs.cons n m rest, s => by
      rw [tracedInitSubs, eventsOfSubs]
      have hm := tracedModuleInit_eq_runEvents m s
      cases h1 : tracedModuleInit m s with
      | error e =>
          dsimp only
          exact (runEvents_append_err _ _ _ _ (hm ▸ h1)).symm
      | ok s1 =>
          dsimp only
          rw [runEvents_append_ok _ _ _ _ (hm ▸ h1)]
          exact tracedInitSubs_eq_runEvents rest s1

end

/-- In a hook-free event sequence, replay raises the aliasing error
exactly when the registered identities are not pairwise fresh. -/
theorem runEvents_aliasing_iff (evs : List TEvent) :
    ∀ (s : List Nat), TEvent.hookStop ∉ evs →
    (runEvents evs s = Except.error TracedErr.aliasing ↔
      ¬ ((idsOfEvents evs).Nodup ∧ ∀ i ∈ idsOfEvents evs, i ∉ s)) := by
  induction evs with
  | nil => intro s _; simp [runEvents, idsOfEvents]
  | cons ev rest ih =>
    intro s hnh
    cases ev with
    | hookStop => simp at hnh
    | addId i =>
      have hnh1 : TEvent.hookStop ∉ rest := fun h => hnh (List.mem_cons_of_mem _ h)
      have hids : idsOfEvents (TEvent.addId i :: rest) = i :: idsOfEvents rest := by
        simp [idsOfEvents, List.filterMap_cons]
      by_cases hi : i ∈ s
      · have hrhs : ¬ ((idsOfEvents (TEvent.addId i :: rest)).Nodup ∧
            ∀ j ∈ idsOfEvents (TEvent.addId i :: rest), j ∉ s) := by
          rintro ⟨-, hdisj⟩
          exact hdisj i (by simp [hids]) hi
        rw [runEvents, if_pos hi]
        simp [hrhs]
      · rw [runEvents, if_neg hi, ih (i :: s) hnh1, hids]
        apply not_congr
        constructor
        · rintro ⟨hnd, hdj⟩
          refine ⟨List.nodup_cons.mpr ⟨?_, hnd⟩, ?_⟩
          · intro hmem
            exact hdj i hmem (List.mem_cons_self i s)
          · intro j hj
            rcases List.mem_cons.mp hj with rfl | hj1
            · exact hi
            · exact fun hjs => hdj j hj1 (List.mem_cons_of_mem _ hjs)
        · rintro ⟨hnd1, hdj⟩
          refine ⟨(List.nodup_cons.mp hnd1).2, ?_⟩
          intro j hj hjis
          rcases List.mem_cons.mp hjis with rfl | hjs
          · exact (List.nodup_cons.mp hnd1).1 hj
          · exact hdj j (List.mem_cons_of_mem _ hj) hjs

/-- Pairwise-fresh identities never produce the aliasing error, with or
without hook stops. -/
theorem runEvents_nodup_no_aliasing (evs : List TEvent) :
    ∀ (s : List Nat), (idsOfEvents evs).Nodup → (∀ i ∈ idsOfEvents evs, i ∉ s) →
    runEvents evs s ≠ Except.error TracedErr.aliasing := by
  induction evs with
  | nil => intro s _ _; simp [runEvents]
  | cons ev rest ih =>
    intro s hnd hdj
    cases ev with
    | hookStop => simp [runEvents]
    | addId i =>
      have hids : idsOfEvents (TEvent.addId i :: rest) = i :: idsOfEvents rest := by
        simp [idsOfEvents, List.filterMap_cons]
      rw [hids] at hnd hdj
      have hi : i ∉ s := hdj i (List.mem_cons_self _ _)
      rw [runEvents, if_neg hi]
      refine ih (i :: s) (List.nodup_cons.mp hnd).2 ?_
      intro j hj hjis
      rcases List.mem_cons.mp hjis with rfl | hjs
      · exact (List.nodup_cons.mp hnd).1 hj
      · exact hdj j (List.mem_cons_of_mem _ hj) hjs

/-- C5: constructing a `TracedModule` over a hook-free module tree in
which some tensor identity is reachable as a parameter or buffer under
two distinct names (also across submodules) raises the aliasing
`ValueError`; over a tree whose parameter and buffer identities are
pairwise distinct, construction never raises the aliasing error. -/
theorem tracedModule_aliasing_rules (m : NNModule) :
    (TEvent.hookStop ∉ eventsOf m → ¬ (collectIds m).Nodup →
      tracedModuleInit m [] = Except.error TracedErr.aliasing) ∧
    ((collectIds m).Nodup →
      tracedModuleInit m [] ≠ Except.error TracedErr.aliasing) := by
  constructor
  · intro hnh hnd
    rw [tracedModuleInit_eq_runEvents]
    exact (runEvents_aliasing_iff (eventsOf m) [] hnh).mpr fun h => hnd h.1
  · intro hnd
    rw [tracedModuleInit_eq_runEvents]
    exact runEvents_nodup_no_aliasing (eventsOf m) [] hnd (by simp)

/-- Witness for C5: a tree sharing one tensor identity between the root
and a submodule fails with the aliasing error, a tree with distinct
identities does not. -/
theorem tracedModule_aliasing_rules_witness :
    tracedModuleInit aliasedTree [] = Except.error TracedErr.aliasing ∧
    tracedModuleInit distinctTree [] ≠ Except.error TracedErr.aliasing := by
  constructor
  · exact (tracedModule_aliasing_rules aliasedTree).1 (by decide) (by decide)
  · exact (tracedModule_aliasing_rules distinctTree).2 (by decide)

/-- A name absent from the Python-side dict has no matching entry. -/
theorem omdContains_false_find (st : ModuleDictState) (k : String)
    (h : omdContains st k = false) :
    st.pythonModules.find? (fun p => p.1 == k) = Option.none := by
  have hany : st.pythonModules.any (fun p => p.1 == k) = false := h
  rw [List.find?_eq_none]
  intro p hp hpk
  have hat : st.pythonModules.any (fun p => p.1 == k) = true :=
    List.any_eq_true.mpr ⟨p, hp, hpk⟩
  rw [hany] at hat
  cases hat

/-- C6: registering a submodule under a name already present in the
`OrderedModuleDict` raises the re-assignment error (and, the state being
returned only on success, leaves the view unchanged); after a successful
registration of `v` under `k`, looking up `k` returns the identical
value `v`, whether `v` is a compiled (`ScriptModule`) or a Python-only
submodule. -/
theorem moduleDict_register_lookup (st : ModuleDictState) (k : String) (v : PyModuleVal) :
    (omdContains st k = true →
      omdSetItem st k v = Except.error DictErr.reassignModule) ∧
    (∀ st1, omdSetItem st k v = Except.ok st1 → omdGetItem st1 k = Except.ok v) := by
  constructor
  · intro h
    simp [omdSetItem, h]
  · intro st1 h
    have hc : omdContains st k = false := by
      cases hcc : omdContains st k
      · rfl
      · simp [omdSetItem, hcc] at h
    have hfind := omdContains_false_find st k hc
    have key : ∀ st2 : ModuleDictState,
        st2.pythonModules = st.pythonModules ++ [(k, v)] →
        omdGetItem st2 k = Except.ok v := by
      intro st2 h2
      simp [omdGetItem, h2, List.find?_append, hfind]
    by_cases hs : v.isScript
    · cases ha : st.ownerAlive
      · simp [omdSetItem, hc, hs, ha] at h
      · simp [omdSetItem, hc, hs, ha] at h
        exact key st1 (by rw [← h])
    · simp [omdSetItem, hc, hs] at h
      exact key st1 (by rw [← h])

/-- Witness for C6: registering a compiled submodule in an empty dict and
looking it up returns the identical value; registering under an occupied
name raises. -/
theorem moduleDict_register_lookup_witness :
    omdGetItem { ownerAlive := true, cppModules := [("m", 5)],
                 pythonModules := [("m", ⟨5, true⟩)] } "m" = Except.ok ⟨5, true⟩ ∧
    omdSetItem { ownerAlive := true, cppModules := [("m", 5)],
                 pythonModules := [("m", (⟨5, true⟩ : PyModuleVal))] } "m" ⟨6, false⟩ =
      Except.error DictErr.reassignModule := by
  constructor
  · exact (moduleDict_register_lookup ⟨true, [], []⟩ "m" ⟨5, true⟩).2 _ rfl
  · exact (moduleDict_register_lookup _ "m" ⟨6, false⟩).1 (by decide)

/-- Counterexample for C7 as stated: after the owning module is
destroyed, a lookup in the submodule view does not raise a lifecycle
error - it returns the stale Python-side cache entry. -/
theorem moduleDict_stale_after_owner_dead :
    deadOwnerModuleDict.ownerAlive = false ∧
    omdGetItem deadOwnerModuleDict "child" = Except.ok ⟨7, false⟩ :=
  ⟨rfl, rfl⟩

/-- C7 (amended): the parameter and buffer views raise the lifecycle
error on any lookup once the owner is destroyed and a `KeyError` on
absent names while it is alive; the submodule view raises a `KeyError`
on absent names, but its lookups read the Python-side cache and return
the registered value regardless of whether the owner is alive. -/
theorem attribute_views_lookup_lifecycle (vs : ParamViewState)
    (mst : ModuleDictState) (k : String) :
    (vs.owner = Option.none →
      opdGetItem vs k = Except.error DictErr.ownerDead ∧
      obdGetItem vs k = Except.error DictErr.ownerDead) ∧
    (∀ m, vs.owner = some m → nativeHasParameter m k = false →
      opdGetItem vs k = Except.error (DictErr.keyError k)) ∧
    (∀ m, vs.owner = some m → nativeHasBuffer m k = false →
      obdGetItem vs k = Except.error (DictErr.keyError k)) ∧
    (omdContains mst k = false →
      omdGetItem mst k = Except.error (DictErr.keyError k)) ∧
    (∀ v, omdGetItem mst k = Except.ok v →
      ∀ b, omdGetItem { mst with ownerAlive := b } k = Except.ok v) := by
  refine ⟨?_, ?_, ?_, ?_, ?_⟩
  · intro h
    exact ⟨by simp [opdGetItem, viewModule, h], by simp [obdGetItem, viewModule, h]⟩
  · intro m hm hp
    simp [opdGetItem, viewModule, hm, hp]
  · intro m hm hb
    simp [obdGetItem, viewModule, hm, hb]
  · intro h
    simp [omdGetItem, omdContains_false_find mst k h]
  · intro v h b
    simpa [omdGetItem] using h

/-- Witness for C7 (amended): a dead-owner parameter view raises the
lifecycle error, an absent name raises a `KeyError` on a live owner, and
the submodule view returns its cached entry for a live and a dead
owner alike. -/
theorem attribute_views_lookup_lifecycle_witness :
    opdGetItem ⟨Option.none⟩ "w" = Except.error DictErr.ownerDead ∧
    opdGetItem ⟨some ⟨[("b1", 3, true)]⟩⟩ "w" = Except.error (DictErr.keyError "w") ∧
    omdGetItem { deadOwnerModuleDict with ownerAlive := true } "child" =
      Except.ok ⟨7, false⟩ := by
  refine ⟨?_, ?_, ?_⟩
  · exact (attribute_views_lookup_lifecycle ⟨Option.none⟩ deadOwnerModuleDict "w").1 rfl |>.1
  · exact (attribute_views_lookup_lifecycle ⟨some ⟨[("b1", 3, true)]⟩⟩
      deadOwnerModuleDict "w").2.1 ⟨[("b1", 3, true)]⟩ rfl (by decide)
  · exact (attribute_views_lookup_lifecycle ⟨Option.none⟩ deadOwnerModuleDict
      "child").2.2.2.2 ⟨7, false⟩ rfl true

/-- C10: on a frozen `TracedModule`, assigning a name that does not
already exist raises the new-property `RuntimeError` while reassigning an
existing name succeeds; before freezing, every assignment succeeds. -/
theorem tracedModule_frozen_setattr (st : TMState) (a : String) (v : ConstVal) :
    (st.frozen = true → tmHasattr st a = false →
      tracedSetattr st a v = Except.error SetattrErr.frozenNewAttr) ∧
    (st.frozen = true → tmHasattr st a = true →
      exOk (tracedSetattr st a v) = true) ∧
    (st.frozen = false → exOk (tracedSetattr st a v) = true) := by
  have hset : scriptSetattr ⟨[], st.attrs⟩ a v =
      Except.ok (smSet ⟨[], st.attrs⟩ a v) := by
    unfold scriptSetattr
    rw [if_pos (by simp)]
  refine ⟨?_, ?_, ?_⟩
  · intro h1 h2
    simp [tracedSetattr, h1, h2]
  · intro h1 h2
    simp [tracedSetattr, h1, h2, hset, exOk]
  · intro h1
    simp [tracedSetattr, h1, hset, exOk]

/-- Witness for C10: a frozen module rejects a fresh name, accepts an
existing one, and an unfrozen module accepts a fresh name. -/
theorem tracedModule_frozen_setattr_witness :
    tracedSetattr ⟨true, []⟩ "x" (ConstVal.pyInt 1) =
      Except.error SetattrErr.frozenNewAttr ∧
    exOk (tracedSetattr ⟨true, [("x", ConstVal.pyInt 0)]⟩ "x" (ConstVal.pyInt 1)) = true ∧
    exOk (tracedSetattr ⟨false, []⟩ "x" (ConstVal.pyInt 1)) = true := by
  refine ⟨?_, ?_, ?_⟩
  · exact (tracedModule_frozen_setattr ⟨true, []⟩ "x" (ConstVal.pyInt 1)).1 rfl
      (by simp [tmHasattr])
  · exact (tracedModule_frozen_setattr ⟨true, [("x", ConstVal.pyInt 0)]⟩ "x"
      (ConstVal.pyInt 1)).2.1 rfl (by simp [tmHasattr])
  · exact (tracedModule_frozen_setattr ⟨false, []⟩ "x" (ConstVal.pyInt 1)).2.2 rfl

end TorchJit
